import Mathlib

/-!
Verification of the symbolicai core against its specification.

This file gives a shallow embedding, in Lean 4, of the parts of the
repository that the specification's claims are about:

* `src/symai/symbol.py` — the `Symbol` wrapper (payload model, string
  rendering, boolean coercion, context rendering, attribute fallback,
  matmul concatenation, construction from another `Symbol`);
* `src/symai/memory.py` — `SlidingWindowListMemory` and
  `SlidingWindowStringConcatMemory` (store / eviction / history / recall);
* `src/symai/extended/document.py` — `DocumentRetriever.__init__`.

Python strings are modelled as `String` (or `List Char` where character
level reasoning is needed), Python `list`/`dict`/`set`/`tuple` payloads as
Lean lists, and machine-independent behaviour (tokenizer, backends) is
modelled from the specification where the implementing module is not part
of the sources, as flagged in the doc comments.
-/

namespace Symai

/-! ## Payload model for `Symbol` (src/symai/symbol.py)

Inline value model for the supported payload kinds used by `__str__`,
`__bool__` and `__matmul__`.  Python `float` and `numpy.ndarray` payloads
are outside this embedding; `dict` keys are modelled as strings.  Nested
`Symbol` payloads are unwrapped by `__init__` before storage, so plain
values suffice here. -/

inductive PyVal where
  | vnone  : PyVal
  | vbool  : Bool → PyVal
  | vint   : Int → PyVal
  | vstr   : String → PyVal
  | vlist  : List PyVal → PyVal
  | vtuple : List PyVal → PyVal
  | vdict  : List (String × PyVal) → PyVal
  | vset   : List PyVal → PyVal

/-- Python `repr` of a string, as used when a list/dict/set of strings is
printed (quote-escaping inside the string is not modelled). -/
def pyStrRepr (s : String) : String := "'" ++ s ++ "'"

/-- Python `str` of a list of strings, e.g. `['a', 'b']`. -/
def pyListRepr (xs : List String) : String :=
  "[" ++ String.intercalate ", " (xs.map pyStrRepr) ++ "]"

/-- Python `str` of a dict mapping strings to strings, e.g. `{'a': 'b'}`. -/
def pyDictRepr (ps : List (String × String)) : String :=
  "\x7b" ++ String.intercalate ", " (ps.map fun p => pyStrRepr p.1 ++ ": " ++ pyStrRepr p.2) ++ "\x7d"

/-- Python `str` of a set of strings: `set()` when empty, `{'a'}` otherwise. -/
def pySetRepr (xs : List String) : String :=
  match xs with
  | [] => "set()"
  | _ => "\x7b" ++ String.intercalate ", " (xs.map pyStrRepr) ++ "\x7d"

mutual

/-- Embedding of `Symbol.__str__` (symbol.py lines 389-405): `None` renders
as the empty string; lists, ndarrays and tuples render as
`str([str(v) for v in value])`; dicts as `str({k: str(v) ...})`; sets as
`str({str(v) ...})`; anything else as `str(value)`. -/
def strSym : PyVal → String
  | .vnone => ""
  | .vbool b => if b then "True" else "False"
  | .vint n => toString n
  | .vstr s => s
  | .vlist l => pyListRepr (strSymList l)
  | .vtuple l => pyListRepr (strSymList l)
  | .vdict d => pyDictRepr (strSymPairs d)
  | .vset l => pySetRepr (strSymList l)

def strSymList : List PyVal → List String
  | [] => []
  | v :: vs => strSym v :: strSymList vs

def strSymPairs : List (String × PyVal) → List (String × String)
  | [] => []
  | p :: ps => (p.1, strSym p.2) :: strSymPairs ps

end

/-- Python truthiness (`True if value else False`) for the supported
payload kinds: empty containers, `0`, the empty string, `False` and
`None` are falsy, everything else is truthy. -/
def pyTruthy : PyVal → Bool
  | .vnone => false
  | .vbool b => b
  | .vint n => if n = 0 then false else true
  | .vstr s => if s = "" then false else true
  | .vlist l => !l.isEmpty
  | .vtuple l => !l.isEmpty
  | .vdict d => !d.isEmpty
  | .vset l => !l.isEmpty

/-- Embedding of `Symbol.__bool__` (symbol.py lines 373-387): start from
`False`; a `bool` payload is returned as-is; otherwise a non-`None`
payload yields `True if value else False`, i.e. its truthiness. -/
def symBool (v : PyVal) : Bool :=
  match v with
  | .vbool b => b
  | .vnone => false
  | v => pyTruthy v

/-- Embedding of `Symbol.__matmul__` (symbol.py line 254):
`Symbol(str(self) + str(other))`. -/
def symMatmul (a other : PyVal) : PyVal := .vstr (strSym a ++ strSym other)

/-- Embedding of `Symbol.__rmatmul__` (symbol.py line 267):
`Symbol(str(other) + str(self))`. -/
def symRmatmul (a other : PyVal) : PyVal := .vstr (strSym other ++ strSym a)

/-! ## Context rendering (src/symai/symbol.py lines 83-119)

`Symbol._dynamic_context` is a process-wide dict keyed by the subtype
name; it is modelled as a partial map `String → Option (List String)`
(`none` = previously unseen subtype). -/

/-- Result type of `Symbol.global_context`: the Python property returns a
2-tuple of strings (line 91), which is a different Python value from a
single concatenated string. -/
inductive PyContextVal where
  | pystr : String → PyContextVal
  | pypair : String → String → PyContextVal
deriving DecidableEq

/-- Embedding of the `Symbol.static_context` property (line 101):
`f'\n[STATIC CONTEXT]\n{self._static_context}' if self._static_context else ''`. -/
def staticContextRender (sc : String) : String :=
  if sc = "" then "" else "\n[STATIC CONTEXT]\n" ++ sc

/-- Embedding of the `Symbol.dynamic_context` property (lines 112-119): an
unseen subtype key renders as `''` (after initialising its entry); otherwise
the entries are newline-joined and, when the join is non-empty, prefixed
with the `[DYNAMIC CONTEXT]` header. -/
def dynamicContextRender (tyKey : String) (tbl : String → Option (List String)) : String :=
  match tbl tyKey with
  | none => ""
  | some entries =>
    let v := String.intercalate "\n" entries
    if v = "" then "" else "\n[DYNAMIC CONTEXT]\n" ++ v

/-- Embedding of the `Symbol.global_context` property (line 91):
`return (self.static_context, self.dynamic_context)` — a 2-tuple. -/
def globalContext (sc tyKey : String) (tbl : String → Option (List String)) : PyContextVal :=
  .pypair (staticContextRender sc) (dynamicContextRender tyKey tbl)

/-- Rendered static context as the specification words it: empty when the
static context string is empty, otherwise the `[STATIC CONTEXT]` header
followed by it. -/
def specStaticRender (sc : String) : String :=
  if sc = "" then "" else "\n[STATIC CONTEXT]\n" ++ sc

/-- Rendered dynamic context as the specification words it: empty when the
subtype's dynamic context list renders empty, otherwise the
`[DYNAMIC CONTEXT]` header followed by the newline-joined entries. -/
def specDynamicRender (tyKey : String) (tbl : String → Option (List String)) : String :=
  match tbl tyKey with
  | none => ""
  | some entries =>
    if String.intercalate "\n" entries = "" then ""
    else "\n[DYNAMIC CONTEXT]\n" ++ String.intercalate "\n" entries

/-! ## Attribute fallback (src/symai/symbol.py lines 169-190)

`Symbol.__getattr__` runs only after the normal (wrapper-level) lookup has
failed; the wrapper-level attributes are modelled as a partial map and the
payload-level lookup as a fallible map whose error carries the original
Python `AttributeError` message. -/

/-- Embedding of the two-stage attribute lookup around
`Symbol.__getattr__`: a hit on the wrapper returns it; otherwise the
lookup falls through to the payload (`getattr(self.value, key)`), and on
an `AttributeError` there a single chained error is raised whose message
names the missing attribute and quotes the original error (lines 183-190). -/
def symGetattr (wrapperAttrs : String → Option α) (payloadAttrs : String → Except String α)
    (key : String) : Except String α :=
  match wrapperAttrs key with
  | some v => .ok v
  | none =>
    match payloadAttrs key with
    | .ok v => .ok v
    | .error e =>
      .error ("Cascading call failed, since object has no attribute '" ++ key
        ++ "'. Original error message: " ++ e)

/-! ## Construction from an existing Symbol, with aliasing made observable
(src/symai/symbol.py lines 29-81)

To talk about container aliasing, mutable containers live on an explicit
heap of cells addressed by `Nat`; a payload holds a *reference* to its
container cell.  `Symbol.__init__` applied to an existing `Symbol` copies
the reference (`self.value = value.value`, line 53), not the cell. -/

inductive HVal where
  | hnone : HVal
  | hbool : Bool → HVal
  | hint : Int → HVal
  | hstr : String → HVal
  | hlistRef : Nat → HVal
  | hdictRef : Nat → HVal
  | hsetRef : Nat → HVal
deriving DecidableEq

inductive HContainer where
  | clist : List HVal → HContainer
  | cdict : List (String × HVal) → HContainer
  | cset : List HVal → HContainer
deriving DecidableEq

def Heap : Type := Nat → HContainer

/-- Fields of a `Symbol` instance relevant here: `value`, `metadata` and
`_static_context` (symbol.py lines 42-46). -/
structure PySymbol where
  value : HVal
  metadata : Option HVal
  staticCtx : String

/-- Embedding of `Symbol.__init__` when the single argument is itself a
`Symbol` (symbol.py lines 52-56): `self.value = value.value` and
`self.metadata = value.metadata` — the payload reference is copied as-is,
no container copy is made; `_static_context` comes from the keyword
argument (default `''`). -/
def symbolFromSymbol (src : PySymbol) (staticCtx : String := "") : PySymbol :=
  { value := src.value, metadata := src.metadata, staticCtx := staticCtx }

/-- Container observed through a payload: dereference its cell, `none` for
scalar payloads. -/
def observe (h : Heap) : HVal → Option HContainer
  | .hlistRef a => some (h a)
  | .hdictRef a => some (h a)
  | .hsetRef a => some (h a)
  | _ => none

def heapSet (h : Heap) (a : Nat) (c : HContainer) : Heap :=
  fun b => if b = a then c else h b

/-- Mutating the container held by a symbol (e.g. `sym.value.append(x)` in
Python): replaces the cell the payload references; a no-op for scalars. -/
def mutateThrough (h : Heap) (s : PySymbol) (c : HContainer) : Heap :=
  match s.value with
  | .hlistRef a => heapSet h a c
  | .hdictRef a => heapSet h a c
  | .hsetRef a => heapSet h a c
  | _ => h

/-- Embedding of `Symbol.__str__` over heap payloads, fuelled by rendering
depth (the Python code recurses through nested containers; fuel makes the
recursion through the heap well-founded).  Same rendering rules as
`strSym`. -/
def renderH (h : Heap) : Nat → HVal → String
  | 0, _ => ""
  | _ + 1, .hnone => ""
  | _ + 1, .hbool b => if b then "True" else "False"
  | _ + 1, .hint n => toString n
  | _ + 1, .hstr s => s
  | d + 1, .hlistRef a =>
    match h a with
    | .clist l => pyListRepr (l.map (renderH h d))
    | .cdict ps => pyDictRepr (ps.map fun p => (p.1, renderH h d p.2))
    | .cset l => pySetRepr (l.map (renderH h d))
  | d + 1, .hdictRef a =>
    match h a with
    | .clist l => pyListRepr (l.map (renderH h d))
    | .cdict ps => pyDictRepr (ps.map fun p => (p.1, renderH h d p.2))
    | .cset l => pySetRepr (l.map (renderH h d))
  | d + 1, .hsetRef a =>
    match h a with
    | .clist l => pyListRepr (l.map (renderH h d))
    | .cdict ps => pyDictRepr (ps.map fun p => (p.1, renderH h d p.2))
    | .cset l => pySetRepr (l.map (renderH h d))

/-! ## SlidingWindowListMemory (src/symai/memory.py lines 23-39) -/

/-- Python slice `l[-k:]`: the last `k` elements — except that `-0 == 0`,
so `l[-0:]` is `l[0:]`, i.e. the whole list. -/
def pyLastSlice (k : Nat) (l : List α) : List α :=
  if k = 0 then l else l.drop (l.length - k)

/-- Embedding of `SlidingWindowListMemory.store` (memory.py lines 30-33):
append the entry; when the length exceeds `max_size`, keep
`self._memory[-self._max_size:]`. -/
def listStore (maxSize : Nat) (mem : List String) (q : String) : List String :=
  let m := mem ++ [q]
  if maxSize < m.length then pyLastSlice maxSize m else m

/-- Storing a whole sequence of entries in order. -/
def listStoreAll (maxSize : Nat) (mem : List String) (qs : List String) : List String :=
  qs.foldl (listStore maxSize) mem

/-- Embedding of `SlidingWindowListMemory.recall` (memory.py line 39):
`self._memory[-self._window_size:]`. -/
def listRecall (windowSize : Nat) (mem : List String) : List String :=
  pyLastSlice windowSize mem

/-- Specification-side "the last `k` entries stored, in insertion order"
(all of them when fewer than `k` exist). -/
def specLast (k : Nat) (l : List α) : List α := l.drop (l.length - k)

/-! ## SlidingWindowStringConcatMemory (src/symai/memory.py lines 42-79) -/

/-- The marker delimiter appended after every stored entry
(memory.py line 46). -/
def marker : String := "[--++=|=++--]"

/-- Leading characters of `sep` stripped from `l`, when `sep` is a prefix
of `l`. -/
def stripPrefixSeq : List Char → List Char → Option (List Char)
  | [], l => some l
  | _ :: _, [] => none
  | s :: ss, c :: cs => if s = c then stripPrefixSeq ss cs else none

/-- Fuelled embedding of Python `str.split(sep)` on character lists for a
non-empty separator (keeps empty pieces, exactly like Python); with
`fuel ≥ l.length` the fuel never runs out. -/
def splitSeqF (sep : List Char) : Nat → List Char → List (List Char)
  | _, [] => [[]]
  | 0, l => [l]
  | f + 1, c :: cs =>
    match stripPrefixSeq sep (c :: cs) with
    | some rest => [] :: splitSeqF sep f rest
    | none =>
      match splitSeqF sep f cs with
      | [] => [[c]]
      | w :: ws => (c :: w) :: ws

/-- Embedding of `SlidingWindowStringConcatMemory.history` (memory.py
lines 52-53): `self._memory.split(self.marker)`. -/
def history (mem : List Char) : List (List Char) :=
  splitSeqF marker.data mem.length mem

/-- Text of the dead local computation in `recall` (memory.py lines 77-78):
`val = self.history(); val = ''.join(val)` — all history segments
concatenated, i.e. the buffer with the marker delimiters removed. -/
def recallJoined (mem : List Char) : List Char := (history mem).flatten

/-- Text that `recall` actually queries (memory.py line 79):
`Symbol(self._memory).query(...)` — the raw buffer, markers included. -/
def recallSubject (mem : List Char) : List Char := mem

/-! ### Token-budgeted eviction in `store` (memory.py lines 58-69)

The token count `len(Symbol(buffer))` is `len(sym.tokens)`; the tokenizer
lives in `symai/ops.py`, which is not part of the sources.  Modelled from
the spec: a "token" is a whitespace-delimited unit of the buffer (§8 of the
spec counts `"one two three four five six"` as 6 tokens), so the token
count is the number of maximal non-whitespace runs, `wordCount` below.
The budget `max_tokens() * token_ratio` is a single rational parameter. -/

def isWs (c : Char) : Bool := c.isWhitespace

/-- Python `str.strip()`: leading and trailing whitespace removed
(restricted to ASCII whitespace). -/
def pystrip (l : List Char) : List Char :=
  ((l.dropWhile isWs).reverse.dropWhile isWs).reverse

/-- Python `str.split(' ')`: split at every single space, keeping empty
pieces. -/
def splitSp : List Char → List (List Char)
  | [] => [[]]
  | c :: cs =>
    if c = ' ' then [] :: splitSp cs
    else
      match splitSp cs with
      | [] => [[c]]
      | w :: ws => (c :: w) :: ws

/-- Python `' '.join(...)`. -/
def joinSp : List (List Char) → List Char
  | [] => []
  | [w] => w
  | w :: ws => w ++ ' ' :: joinSp ws

/-- One iteration of the eviction loop body (memory.py lines 65-67):
`val = sym.value.strip(); val = val.split(' ')[1:];`
`self._memory = ' '.join(val)`. -/
def dropTok (l : List Char) : List Char :=
  joinSp ((splitSp (pystrip l)).drop 1)

/-- Flush the accumulated (reversed) current word. -/
def flushAcc (cur : List Char) : List (List Char) :=
  if cur = [] then [] else [cur.reverse]

def wordsAux : List Char → List Char → List (List Char)
  | cur, [] => flushAcc cur
  | cur, c :: cs =>
    if isWs c then flushAcc cur ++ wordsAux [] cs else wordsAux (c :: cur) cs

/-- The whitespace-delimited units of the buffer, in order. -/
def pywords (l : List Char) : List (List Char) := wordsAux [] l

/-- Modelled from the spec: the token count of the buffer is its number of
whitespace-delimited units (the tokenizer itself, `symai/ops.py`, is not
part of the sources). -/
def wordCount (l : List Char) : Nat := (pywords l).length

/-- The eviction loop of `store` (memory.py lines 64-69), fuelled: while
the token count exceeds the budget `b`, drop the first space-delimited
unit of the buffer.  With enough fuel this computes the loop's limit (see
`evictLoop_stable`). -/
def evictLoop (b : ℚ) : Nat → List Char → List Char
  | 0, l => l
  | f + 1, l =>
    if (wordCount l : ℚ) > b then evictLoop b f (dropTok l) else l

/-- The buffer right after the append step of `store` (memory.py line 60):
`self._memory += f'{str(query)}{self.marker}'`. -/
def storeAppend (mem qtext : List Char) : List Char :=
  mem ++ qtext ++ marker.data

/-- The buffer after a full `store` call: append, then run the eviction
loop to its limit. -/
def storeRun (b : ℚ) (mem qtext : List Char) : List Char :=
  evictLoop b (wordCount (storeAppend mem qtext)) (storeAppend mem qtext)

/-! ## DocumentRetriever (src/symai/extended/document.py lines 8-30)

`Indexer`, `FileReader` and `ParagraphFormatter` are imported from modules
that are not part of the sources; their observable behaviour is modelled
from the spec (§4.5): registering/building an index reads the source text,
chunks it with the formatter and embeds every chunk; binding to an
existing index performs no backend call.  The branch structure below is
the one of `DocumentRetriever.__init__`. -/

inductive BackendCall where
  | readFile : String → BackendCall
  | registerIdx : String → BackendCall
  | embedChunk : String → String → BackendCall
deriving DecidableEq

structure IndexHandle where
  name : String
deriving DecidableEq

structure IndexQuery where
  indexName : String
  queryText : String
deriving DecidableEq

structure DocRetrieverResult where
  calls : List BackendCall
  handle : IndexHandle
  textLoaded : Option String
deriving DecidableEq

/-- Embedding of `DocumentRetriever.__init__` (document.py lines 8-30) for
a string `file` argument: when the index does not exist or `overwrite` is
set, it registers the index, reads the file and embeds every chunk
(`self.index = indexer(text)`); otherwise it only binds to the existing
index (`self.index = indexer(**kwargs)`) and `text` stays `None`.
The chunking/embedding behaviour of `indexer(text)` is modelled from the
spec (§4.5). -/
def docRetrieverInit (formatter : String → List String) (filePath fileContent indexName : String)
    (indexExists overwrite : Bool) : DocRetrieverResult :=
  if !indexExists || overwrite then
    { calls := .registerIdx indexName :: .readFile filePath ::
        (formatter fileContent).map (.embedChunk indexName)
      handle := ⟨indexName⟩
      textLoaded := some fileContent }
  else
    { calls := []
      handle := ⟨indexName⟩
      textLoaded := none }

/-- Number of embedding calls in a backend-call trace. -/
def countEmbedCalls (calls : List BackendCall) : Nat :=
  (calls.filter fun c => match c with | .embedChunk _ _ => true | _ => false).length

/-- Embedding of `DocumentRetriever.forward` (document.py lines 32-33):
`self.index(query)` — a plain query against the bound index.  Modelled
from the spec: the index handle answers queries against its named index. -/
def docForward (h : IndexHandle) (q : String) : IndexQuery := ⟨h.name, q⟩

/-! ## Concrete example states used by the counterexample theorems -/

/-- A heap with a single one-element list container at address 0. -/
def exHeap : Heap := fun _ => .clist [.hint 1]

/-- A symbol whose payload is (a reference to) the list at address 0. -/
def exSym : PySymbol := ⟨.hlistRef 0, none, ""⟩

/-- The memory buffer after two `store` calls (entries `a` and `b`). -/
def exBuffer : List Char := "a".data ++ marker.data ++ "b".data ++ marker.data

/-! ## Theorems -/

/-- C10: the matmul concatenation operator returns a new Symbol whose
payload is exactly `str(a) + str(b)`, and the reflected form yields
`str(b) + str(a)`; both are computed locally from the rendered strings
(`symMatmul`/`symRmatmul` are pure functions of the two payloads, with no
backend dispatch and no mutation of either operand). -/
theorem matmul_concatenates (a b : PyVal) :
    symMatmul a b = .vstr (strSym a ++ strSym b)
    ∧ symRmatmul a b = .vstr (strSym b ++ strSym a) :=
  ⟨rfl, rfl⟩

/-- C5 counterexample: the claim says every non-`None`, non-bool payload —
including the empty string — coerces to true, but `Symbol('')` is falsy:
`__bool__` returns `True if self.value else False` for such payloads. -/
theorem symBool_empty_str_false : ¬ (symBool (PyVal.vstr "") = true) := by
  decide

/-- C5 (amended): boolean coercion of a Symbol yields false for `None`,
the boolean itself for a literal bool payload, and the payload's native
Python truthiness for every other payload (so empty string, 0 and empty
containers coerce to false). -/
theorem symBool_truthiness :
    symBool PyVal.vnone = false
    ∧ (∀ b, symBool (PyVal.vbool b) = b)
    ∧ (∀ v : PyVal, v ≠ PyVal.vnone → (∀ b, v ≠ PyVal.vbool b) → symBool v = pyTruthy v) := by
  refine ⟨rfl, fun b => rfl, fun v hn hb => ?_⟩
  cases v
  case vnone => exact absurd rfl hn
  case vbool b => exact absurd rfl (hb b)
  all_goals rfl

/-- Instantiation of `symBool_truthiness` at the concrete payload `'x'`. -/
theorem symBool_truthiness_witness :
    PyVal.vstr "x" ≠ PyVal.vnone
    ∧ (∀ b, PyVal.vstr "x" ≠ PyVal.vbool b)
    ∧ symBool (PyVal.vstr "x") = pyTruthy (PyVal.vstr "x") :=
  ⟨fun h => PyVal.noConfusion h, fun _ h => PyVal.noConfusion h,
    symBool_truthiness.2.2 (PyVal.vstr "x") (fun h => PyVal.noConfusion h)
      (fun _ h => PyVal.noConfusion h)⟩

/-- C3 counterexample: at a symbol with static context `S` and dynamic
context entries `['D']`, `global_context` is the 2-tuple of the two
rendered contexts, not the single concatenated string the claim
describes. -/
theorem globalContext_not_single_string :
    globalContext "S" "T" (fun _ => some ["D"])
      ≠ PyContextVal.pystr (staticContextRender "S"
          ++ dynamicContextRender "T" (fun _ => some ["D"])) := by
  decide

/-- C3 (amended): `global_context` is the pair (tuple) whose first
component is the rendered static context (prefixed with the
`[STATIC CONTEXT]` header when the static context string is non-empty,
otherwise empty) and whose second component is the rendered dynamic
context (prefixed with the `[DYNAMIC CONTEXT]` header with entries
newline-joined when the subtype's dynamic context list renders non-empty,
otherwise empty); the two components are returned as a tuple, not
concatenated into one string. -/
theorem globalContext_pair_of_renders (sc ty : String) (tbl : String → Option (List String)) :
    globalContext sc ty tbl = .pypair (specStaticRender sc) (specDynamicRender ty tbl) := by
  cases h : tbl ty <;>
    simp [globalContext, staticContextRender, dynamicContextRender, specStaticRender,
      specDynamicRender, h]

/-- C9: an attribute lookup that fails on the wrapper and on the payload
raises one chained attribute error naming the missing attribute and
quoting the original error; a lookup that succeeds on either level
returns that attribute's value. -/
theorem symGetattr_chained_error (w : String → Option α) (p : String → Except String α)
    (k : String) :
    (∀ v, w k = some v → symGetattr w p k = .ok v)
    ∧ (w k = none → ∀ v, p k = .ok v → symGetattr w p k = .ok v)
    ∧ (w k = none → ∀ e, p k = .error e → symGetattr w p k =
        .error ("Cascading call failed, since object has no attribute '" ++ k
          ++ "'. Original error message: " ++ e)) := by
  refine ⟨fun v hv => ?_, fun hw v hv => ?_, fun hw e he => ?_⟩ <;>
    simp [symGetattr, *]

/-- Instantiation of `symGetattr_chained_error` at a concrete failing
lookup. -/
theorem symGetattr_chained_error_witness :
    symGetattr (fun _ => (none : Option Nat)) (fun _ => Except.error "boom") "foo"
      = .error ("Cascading call failed, since object has no attribute '" ++ "foo"
          ++ "'. Original error message: " ++ "boom") :=
  (symGetattr_chained_error (fun _ => (none : Option Nat))
    (fun _ => Except.error "boom") "foo").2.2 rfl "boom" rfl

/-- C7: building a `DocumentRetriever` for an index that already exists,
with `overwrite=False`, performs no backend call at all — in particular
zero embedding calls and no file read — and binds the handle to the
existing index, against which `forward` then runs plain queries. -/
theorem docRetriever_existing_index_no_embed (formatter : String → List String)
    (filePath fileContent indexName : String) (indexExists overwrite : Bool)
    (hex : indexExists = true) (hov : overwrite = false) :
    (docRetrieverInit formatter filePath fileContent indexName indexExists overwrite).calls = []
    ∧ countEmbedCalls
        (docRetrieverInit formatter filePath fileContent indexName indexExists overwrite).calls = 0
    ∧ (docRetrieverInit formatter filePath fileContent indexName indexExists overwrite).textLoaded
        = none
    ∧ ∀ q, docForward
        (docRetrieverInit formatter filePath fileContent indexName indexExists overwrite).handle q
        = ⟨indexName, q⟩ := by
  subst hex hov
  exact ⟨rfl, rfl, rfl, fun q => rfl⟩

/-- Instantiation of `docRetriever_existing_index_no_embed` at a concrete
existing index. -/
theorem docRetriever_existing_index_no_embed_witness :
    (docRetrieverInit (fun s => [s]) "f.txt" "text" "idx" true false).calls = []
    ∧ countEmbedCalls (docRetrieverInit (fun s => [s]) "f.txt" "text" "idx" true false).calls = 0
    ∧ (docRetrieverInit (fun s => [s]) "f.txt" "text" "idx" true false).textLoaded = none
    ∧ ∀ q, docForward (docRetrieverInit (fun s => [s]) "f.txt" "text" "idx" true false).handle q
        = ⟨"idx", q⟩ :=
  docRetriever_existing_index_no_embed (fun s => [s]) "f.txt" "text" "idx" true false rfl rfl

/-- C1 counterexample: constructing a Symbol from an existing Symbol
copies the payload *reference* (`self.value = value.value`), so mutating
the list container through the copy changes the payload observed through
the original — the claim's independence property fails. -/
theorem symbolFromSymbol_alias_mutation_observed :
    observe (mutateThrough exHeap (symbolFromSymbol exSym "") (.clist [.hint 1, .hint 2]))
        exSym.value
      ≠ observe exHeap exSym.value := by
  decide

/-- C1 (amended): constructing a Symbol from an existing Symbol yields an
equal rendered string form, but the payload container is shared
(aliased), not copied: the constructed symbol holds the very same payload
reference, so a mutation through the copy is a mutation through the
original and both observe the same container before and after. -/
theorem symbolFromSymbol_render_eq_and_alias (src : PySymbol) (sc : String) (h : Heap)
    (d : Nat) (c : HContainer) :
    renderH h d (symbolFromSymbol src sc).value = renderH h d src.value
    ∧ (symbolFromSymbol src sc).value = src.value
    ∧ mutateThrough h (symbolFromSymbol src sc) c = mutateThrough h src c
    ∧ observe h (symbolFromSymbol src sc).value = observe h src.value :=
  ⟨rfl, rfl, rfl, rfl⟩

/-- C4: evaluation of `recall` at a buffer holding two stored entries:
the text it queries (`Symbol(self._memory)`, markers included) differs
from the concatenation of the history segments (markers removed) that the
dead local `val = ''.join(self.history())` computes and the claim
describes. -/
theorem recall_queries_raw_buffer_not_joined_history :
    recallSubject exBuffer ≠ recallJoined exBuffer := by
  decide

/-! ### Sliding-window list memory lemmas (claim C6) -/

theorem specLast_of_le {k : Nat} {l : List α} (h : l.length ≤ k) : specLast k l = l := by
  unfold specLast
  rw [Nat.sub_eq_zero_of_le h, List.drop_zero]

theorem specLast_length (k : Nat) (l : List α) : (specLast k l).length = l.length - (l.length - k) := by
  unfold specLast
  rw [List.length_drop]

theorem specLast_append_left (k : Nat) (a b : List α) (h : k ≤ b.length) :
    specLast k (a ++ b) = specLast k b := by
  unfold specLast
  rw [List.length_append, List.drop_append_eq_append_drop,
    List.drop_eq_nil_of_le (by omega), List.nil_append]
  congr 1
  omega

theorem specLast_absorb (k : Nat) (a bs : List α) :
    specLast k (specLast k a ++ bs) = specLast k (a ++ bs) := by
  by_cases h : a.length ≤ k
  · rw [specLast_of_le h]
  · push_neg at h
    have hsplit : a = a.take (a.length - k) ++ specLast k a := (List.take_append_drop _ a).symm
    have hlen : (specLast k a).length = k := by rw [specLast_length]; omega
    conv_rhs => rw [hsplit, List.append_assoc]
    rw [specLast_append_left k (a.take (a.length - k)) (specLast k a ++ bs)
      (by rw [List.length_append, hlen]; omega)]

theorem listStore_eq_specLast (maxSize : Nat) (hmax : 1 ≤ maxSize) (mem : List String)
    (q : String) : listStore maxSize mem q = specLast maxSize (mem ++ [q]) := by
  simp only [listStore, pyLastSlice]
  by_cases h : maxSize < (mem ++ [q]).length
  · rw [if_pos h, if_neg (by omega)]
    rfl
  · rw [if_neg h, specLast_of_le (by omega)]

theorem listStore_length_le (maxSize : Nat) (hmax : 1 ≤ maxSize) (mem : List String)
    (q : String) : (listStore maxSize mem q).length ≤ maxSize := by
  rw [listStore_eq_specLast maxSize hmax, specLast_length]
  omega

theorem listStoreAll_eq_specLast (maxSize : Nat) (hmax : 1 ≤ maxSize) :
    ∀ (qs mem : List String), mem.length ≤ maxSize →
      listStoreAll maxSize mem qs = specLast maxSize (mem ++ qs) := by
  intro qs
  induction qs with
  | nil =>
    intro mem hm
    rw [List.append_nil]
    exact (specLast_of_le hm).symm
  | cons q qs' ih =>
    intro mem hm
    show listStoreAll maxSize (listStore maxSize mem q) qs' = _
    rw [ih (listStore maxSize mem q) (listStore_length_le maxSize hmax mem q),
      listStore_eq_specLast maxSize hmax, specLast_absorb, List.append_assoc,
      List.singleton_append]

/-- C6 counterexample: with `max_size = 0` (and any window size), storing
`N = 2 > 0` entries leaves 2 entries, not `max_size`: the Python slice
`self._memory[-0:]` is the whole list, so nothing is ever evicted. -/
theorem slidingWindowList_max_size_zero :
    ¬ ((listStoreAll 0 [] ["a", "b"]).length = 0) := by
  decide

/-- C6 (amended): for `window_size ≥ 1` and `max_size ≥ 1`, after storing
any sequence of `N > max_size` entries the stored length equals
`max_size`, the retained entries are exactly the last `max_size` entries
stored in insertion order, and `recall()` returns exactly the last
`window_size` of those retained entries, insertion order preserved. -/
theorem slidingWindowList_retention (maxSize windowSize : Nat) (qs : List String)
    (hmax : 1 ≤ maxSize) (hwin : 1 ≤ windowSize) (hN : maxSize < qs.length) :
    (listStoreAll maxSize [] qs).length = maxSize
    ∧ listStoreAll maxSize [] qs = specLast maxSize qs
    ∧ listRecall windowSize (listStoreAll maxSize [] qs)
        = specLast windowSize (listStoreAll maxSize [] qs) := by
  have hall : listStoreAll maxSize [] qs = specLast maxSize qs := by
    simpa using listStoreAll_eq_specLast maxSize hmax qs [] (by simp)
  refine ⟨?_, hall, ?_⟩
  · rw [hall, specLast_length]
    omega
  · simp only [listRecall, pyLastSlice]
    rw [if_neg (by omega)]
    rfl

/-- Instantiation of `slidingWindowList_retention` at `max_size = 2`,
`window_size = 1`, storing three entries. -/
theorem slidingWindowList_retention_witness :
    (listStoreAll 2 [] ["a", "b", "c"]).length = 2
    ∧ listStoreAll 2 [] ["a", "b", "c"] = specLast 2 ["a", "b", "c"]
    ∧ listRecall 1 (listStoreAll 2 [] ["a", "b", "c"])
        = specLast 1 (listStoreAll 2 [] ["a", "b", "c"]) :=
  slidingWindowList_retention 2 1 ["a", "b", "c"] (by decide) (by decide) (by decide)

/-! ### Word-structure lemmas for the token-budgeted eviction loop
(claims C2 and C8) -/

theorem wordsAux_append_ws (c : Char) (hc : isWs c = true) (a : List Char) :
    ∀ (cur b : List Char), wordsAux cur (a ++ c :: b) = wordsAux cur a ++ wordsAux [] b := by
  induction a with
  | nil =>
    intro cur b
    simp [wordsAux, hc]
  | cons d a' ih =>
    intro cur b
    simp only [List.cons_append, wordsAux]
    by_cases hd : isWs d
    · simp [hd, ih, List.append_assoc]
    · simp [hd, ih]

theorem wordsAux_ne_nil (v : List Char) : ∀ {cur : List Char}, cur ≠ [] → wordsAux cur v ≠ [] := by
  induction v with
  | nil =>
    intro cur h
    simp [wordsAux, flushAcc, h]
  | cons c cs ih =>
    intro cur h
    simp only [wordsAux]
    by_cases hc : isWs c
    · simp [hc, flushAcc, h]
    · simp only [hc, if_false, Bool.false_eq_true]
      exact ih (by simp)

theorem wordsAux_all_ws (w : List Char) (hw : ∀ c ∈ w, isWs c = true) :
    ∀ (cur : List Char), wordsAux cur w = flushAcc cur := by
  induction w with
  | nil => intro cur; rfl
  | cons c w' ih =>
    intro cur
    have hc : isWs c = true := hw c (List.mem_cons_self c w')
    have ih' := ih (fun d hd => hw d (List.mem_cons_of_mem _ hd))
    simp [wordsAux, hc, ih', flushAcc]

theorem wordsAux_append_all_ws (w : List Char) (hw : ∀ c ∈ w, isWs c = true) (a : List Char) :
    ∀ (cur : List Char), wordsAux cur (a ++ w) = wordsAux cur a := by
  induction a with
  | nil =>
    intro cur
    rw [List.nil_append, wordsAux_all_ws w hw cur]
    rfl
  | cons d a' ih =>
    intro cur
    simp only [List.cons_append, wordsAux]
    by_cases hd : isWs d
    · simp [hd, ih]
    · simp [hd, ih]

theorem wordsAux_dropWhile_ws (l : List Char) :
    wordsAux [] (l.dropWhile isWs) = wordsAux [] l := by
  induction l with
  | nil => rfl
  | cons c cs ih =>
    by_cases hc : isWs c
    · rw [List.dropWhile_cons_of_pos hc, ih]
      simp [wordsAux, hc, flushAcc]
    · rw [List.dropWhile_cons_of_neg (by simpa using hc)]

theorem pywords_pystrip (l : List Char) : pywords (pystrip l) = pywords l := by
  unfold pywords pystrip
  have hsplit : l.dropWhile isWs
      = ((l.dropWhile isWs).reverse.dropWhile isWs).reverse
        ++ ((l.dropWhile isWs).reverse.takeWhile isWs).reverse := by
    conv_lhs => rw [← List.reverse_reverse (l.dropWhile isWs),
      ← List.takeWhile_append_dropWhile isWs (l.dropWhile isWs).reverse]
    rw [List.reverse_append]
  have hws : ∀ c ∈ ((l.dropWhile isWs).reverse.takeWhile isWs).reverse, isWs c = true := by
    intro c hc
    rw [List.mem_reverse] at hc
    exact List.mem_takeWhile_imp hc
  calc wordsAux [] (((l.dropWhile isWs).reverse.dropWhile isWs).reverse)
      = wordsAux [] (((l.dropWhile isWs).reverse.dropWhile isWs).reverse
          ++ ((l.dropWhile isWs).reverse.takeWhile isWs).reverse) :=
        (wordsAux_append_all_ws _ hws _ []).symm
    _ = wordsAux [] (l.dropWhile isWs) := by rw [← hsplit]
    _ = wordsAux [] l := wordsAux_dropWhile_ws l

theorem dropWhile_head_false (p : Char → Bool) (l : List Char) (c : Char) (u : List Char)
    (h : l.dropWhile p = c :: u) : p c = false := by
  induction l with
  | nil => simp [List.dropWhile] at h
  | cons d ds ih =>
    by_cases hd : p d
    · rw [List.dropWhile_cons_of_pos hd] at h
      exact ih h
    · rw [List.dropWhile_cons_of_neg (by simpa using hd)] at h
      cases h
      simpa using hd

theorem pystrip_head_not_ws (l : List Char) (c : Char) (u : List Char)
    (h : pystrip l = c :: u) : isWs c = false := by
  unfold pystrip at h
  have hsuf : (l.dropWhile isWs).reverse.dropWhile isWs <:+ (l.dropWhile isWs).reverse :=
    List.dropWhile_suffix isWs
  obtain ⟨pre, hpre⟩ := hsuf
  have hl : l.dropWhile isWs = c :: (u ++ pre.reverse) := by
    have : (l.dropWhile isWs).reverse.reverse
        = ((l.dropWhile isWs).reverse.dropWhile isWs).reverse ++ pre.reverse := by
      rw [← List.reverse_append, hpre]
    rw [List.reverse_reverse] at this
    rw [this, h]
    simp
  exact dropWhile_head_false isWs l c _ hl

theorem splitSp_ne_nil (l : List Char) : splitSp l ≠ [] := by
  cases l with
  | nil => simp [splitSp]
  | cons c cs =>
    simp only [splitSp]
    split
    · simp
    · split <;> simp

theorem splitSp_append_space (u rest : List Char) (hu : ' ' ∉ u) :
    splitSp (u ++ ' ' :: rest) = u :: splitSp rest := by
  induction u with
  | nil => simp [splitSp]
  | cons c u' ih =>
    rw [List.mem_cons, not_or] at hu
    have hc : ¬ (c = ' ') := fun h => hu.1 h.symm
    rw [List.cons_append]
    simp only [splitSp, if_neg hc, ih hu.2]

theorem splitSp_no_space (s : List Char) (hs : ' ' ∉ s) : splitSp s = [s] := by
  induction s with
  | nil => rfl
  | cons c cs ih =>
    rw [List.mem_cons, not_or] at hs
    have hc : ¬ (c = ' ') := fun h => hs.1 h.symm
    simp only [splitSp, if_neg hc, ih hs.2]

theorem joinSp_splitSp (s : List Char) : joinSp (splitSp s) = s := by
  induction s with
  | nil => rfl
  | cons c cs ih =>
    by_cases hc : c = ' '
    · subst hc
      simp only [splitSp, if_pos rfl]
      obtain ⟨w, ws, hws⟩ : ∃ w ws, splitSp cs = w :: ws := by
        cases h : splitSp cs with
        | nil => exact absurd h (splitSp_ne_nil cs)
        | cons w ws => exact ⟨w, ws, rfl⟩
      rw [hws]
      show [] ++ ' ' :: joinSp (w :: ws) = ' ' :: cs
      rw [List.nil_append, ← hws, ih]
    · simp only [splitSp, if_neg hc]
      cases h : splitSp cs with
      | nil => exact absurd h (splitSp_ne_nil cs)
      | cons w ws =>
        rw [h] at ih
        cases ws with
        | nil =>
          show c :: w = c :: cs
          rw [show joinSp [w] = w from rfl] at ih
          rw [ih]
        | cons x xs =>
          show (c :: w) ++ ' ' :: joinSp (x :: xs) = c :: cs
          rw [List.cons_append, ← ih]
          rfl

theorem first_space_decomp (s : List Char) :
    ' ' ∉ s ∨ ∃ u rest, s = u ++ ' ' :: rest ∧ ' ' ∉ u := by
  induction s with
  | nil => left; simp
  | cons c cs ih =>
    by_cases hc : c = ' '
    · right
      exact ⟨[], cs, by simp [hc], by simp⟩
    · rcases ih with h | ⟨u, rest, heq, hu⟩
      · left
        rw [List.mem_cons, not_or]
        exact ⟨fun h' => hc h'.symm, h⟩
      · right
        refine ⟨c :: u, rest, by simp [heq], ?_⟩
        rw [List.mem_cons, not_or]
        exact ⟨fun h' => hc h'.symm, hu⟩

theorem dropTok_decomp (l : List Char) :
    (dropTok l = [] ∧ ' ' ∉ pystrip l)
    ∨ ∃ u, pystrip l = u ++ ' ' :: dropTok l ∧ ' ' ∉ u := by
  rcases first_space_decomp (pystrip l) with h | ⟨u, rest, heq, hu⟩
  · left
    refine ⟨?_, h⟩
    unfold dropTok
    rw [splitSp_no_space _ h]
    rfl
  · right
    have hdt : dropTok l = rest := by
      unfold dropTok
      rw [heq, splitSp_append_space u rest hu, List.drop_one, List.tail_cons, joinSp_splitSp]
    exact ⟨u, by rw [hdt, heq], hu⟩

theorem pywords_dropTok_suffix (l : List Char) : pywords (dropTok l) <:+ pywords l := by
  rcases dropTok_decomp l with ⟨h0, _⟩ | ⟨u, heq, hu⟩
  · rw [h0]
    exact List.nil_suffix
  · have hsum : pywords l = wordsAux [] u ++ pywords (dropTok l) := by
      rw [← pywords_pystrip l, heq]
      exact wordsAux_append_ws ' ' (by decide) u [] (dropTok l)
    rw [hsum]
    exact List.suffix_append _ _

theorem wordCount_dropTok_lt (b : ℚ) (hb : 0 ≤ b) (l : List Char)
    (hl : (wordCount l : ℚ) > b) : wordCount (dropTok l) < wordCount l := by
  have hpos : 0 < wordCount l := by
    rcases Nat.eq_zero_or_pos (wordCount l) with h0 | hpos
    · rw [h0] at hl
      norm_num at hl
      exact absurd hl (not_lt.mpr hb)
    · exact hpos
  rcases dropTok_decomp l with ⟨h0, _⟩ | ⟨u, heq, hu⟩
  · rw [h0]
    simpa [wordCount, pywords, wordsAux, flushAcc] using hpos
  · have hsum : wordCount l = (wordsAux [] u).length + wordCount (dropTok l) := by
      unfold wordCount
      rw [← pywords_pystrip l, heq]
      unfold pywords
      rw [wordsAux_append_ws ' ' (by decide) u [] (dropTok l), List.length_append]
    have hune : wordsAux [] u ≠ [] := by
      cases hu' : u with
      | nil =>
        exfalso
        rw [hu'] at heq
        have := pystrip_head_not_ws l ' ' (dropTok l) (by simpa using heq)
        simp [isWs] at this
      | cons c u' =>
        rw [hu'] at heq
        have hc : isWs c = false :=
          pystrip_head_not_ws l c (u' ++ ' ' :: dropTok l) (by simpa using heq)
        show wordsAux [] (c :: u') ≠ []
        simp only [wordsAux, hc, if_false, Bool.false_eq_true]
        exact wordsAux_ne_nil u' (by simp)
    have h1 : 1 ≤ (wordsAux [] u).length := List.length_pos.mpr hune
    omega

theorem evictLoop_le (b : ℚ) (hb : 0 ≤ b) :
    ∀ (f : Nat) (l : List Char), wordCount l ≤ f → (wordCount (evictLoop b f l) : ℚ) ≤ b := by
  intro f
  induction f with
  | zero =>
    intro l hl
    have h0 : wordCount l = 0 := Nat.le_zero.mp hl
    show (wordCount l : ℚ) ≤ b
    rw [h0]
    simpa using hb
  | succ f ih =>
    intro l hl
    show (wordCount (if (wordCount l : ℚ) > b then evictLoop b f (dropTok l) else l) : ℚ) ≤ b
    by_cases hc : (wordCount l : ℚ) > b
    · rw [if_pos hc]
      apply ih
      have := wordCount_dropTok_lt b hb l hc
      omega
    · rw [if_neg hc]
      exact not_lt.mp hc

theorem evictLoop_of_not_gt (b : ℚ) (f : Nat) (l : List Char)
    (h : ¬ ((wordCount l : ℚ) > b)) : evictLoop b f l = l := by
  cases f with
  | zero => rfl
  | succ f => exact if_neg h

theorem evictLoop_stable (b : ℚ) (hb : 0 ≤ b) :
    ∀ (f g : Nat) (l : List Char), wordCount l ≤ f → wordCount l ≤ g →
      evictLoop b f l = evictLoop b g l := by
  intro f
  induction f with
  | zero =>
    intro g l hf hg
    have h0 : wordCount l = 0 := Nat.le_zero.mp hf
    have hnc : ¬ ((wordCount l : ℚ) > b) := by
      rw [h0]
      push_neg
      simpa using hb
    rw [evictLoop_of_not_gt b 0 l hnc, evictLoop_of_not_gt b g l hnc]
  | succ f ih =>
    intro g l hf hg
    by_cases hc : (wordCount l : ℚ) > b
    · cases g with
      | zero =>
        have h0 : wordCount l = 0 := Nat.le_zero.mp hg
        rw [h0] at hc
        norm_num at hc
        exact absurd hc (not_lt.mpr hb)
      | succ g' =>
        show (if (wordCount l : ℚ) > b then evictLoop b f (dropTok l) else l)
          = (if (wordCount l : ℚ) > b then evictLoop b g' (dropTok l) else l)
        rw [if_pos hc, if_pos hc]
        have hlt := wordCount_dropTok_lt b hb l hc
        exact ih g' (dropTok l) (by omega) (by omega)
    · rw [evictLoop_of_not_gt b (f + 1) l hc, evictLoop_of_not_gt b g l hc]

/-- C2: for a non-negative token budget `b = max_tokens() * token_ratio`,
after every `store` call the buffer's token count is at most `b` (first
conjunct; the second conjunct states that the fuelled loop has stabilised,
i.e. the value proved about is the loop's limit), and every eviction step
removes only whole whitespace-delimited units from the front of the
buffer — the units of the shrunk buffer are a suffix of the units of the
previous buffer, so no unit is ever truncated in the middle (third
conjunct). -/
theorem store_token_bound_and_whole_units (b : ℚ) (hb : 0 ≤ b) (mem qtext : List Char) :
    (wordCount (storeRun b mem qtext) : ℚ) ≤ b
    ∧ (∀ f, wordCount (storeAppend mem qtext) ≤ f →
        evictLoop b f (storeAppend mem qtext) = storeRun b mem qtext)
    ∧ (∀ l, pywords (dropTok l) <:+ pywords l) :=
  ⟨evictLoop_le b hb _ _ le_rfl,
    fun f hf => evictLoop_stable b hb f _ _ hf le_rfl,
    fun l => pywords_dropTok_suffix l⟩

/-- Instantiation of `store_token_bound_and_whole_units` at the spec §8
example: budget 5 (`max_tokens() = 10`, `token_ratio = 0.5`), storing six
words into an empty buffer. -/
theorem store_token_bound_witness :
    (0 : ℚ) ≤ 5
    ∧ (wordCount (storeRun 5 [] ("one two three four five six".data)) : ℚ) ≤ 5 :=
  ⟨by norm_num,
    (store_token_bound_and_whole_units 5 (by norm_num) [] ("one two three four five six".data)).1⟩

/-- C8: for a non-negative budget `b = max_tokens() * token_ratio`, every
iteration of the eviction loop taken under the loop condition strictly
reduces the buffer's token count (first conjunct), hence the loop reaches
its limit after at most `wordCount l` iterations: all fuel amounts of at
least `wordCount l` give the same result, i.e. the loop terminates and
`store` is total (second conjunct). -/
theorem evictLoop_terminates (b : ℚ) (hb : 0 ≤ b) :
    (∀ l, (wordCount l : ℚ) > b → wordCount (dropTok l) < wordCount l)
    ∧ (∀ l f g, wordCount l ≤ f → wordCount l ≤ g → evictLoop b f l = evictLoop b g l) :=
  ⟨fun l hl => wordCount_dropTok_lt b hb l hl,
    fun l f g hf hg => evictLoop_stable b hb f g l hf hg⟩

/-- Instantiation of `evictLoop_terminates` at budget 2 and the concrete
three-word buffer `a b c`. -/
theorem evictLoop_terminates_witness :
    (0 : ℚ) ≤ 2 ∧ wordCount (dropTok ("a b c".data)) < wordCount ("a b c".data) := by
  refine ⟨by norm_num, ?_⟩
  refine (evictLoop_terminates 2 (by norm_num)).1 ("a b c".data) ?_
  rw [show wordCount ("a b c".data) = 3 from rfl]
  norm_num

end Symai
